import Mathlib

/-!
# Verification of the finite-ridge renderer

Shallow embedding of the segment-drawing loop in
`src/notebooks/matplotlib_SciPy.ipynb` (cell 5):

```python
for edge in vor_ridges:
    if -1 in edge:
        continue
    edge_start = vor_vertices[edge[0]]
    edge_end = vor_vertices[edge[1]]
    ax_manual.plot(...)
```

`vor_vertices` is a NumPy array of 2D points; `vor.ridge_vertices` is a
Python list of lists of ints.  Python/NumPy integer indexing resolves a
negative index `i` on a sequence of length `n` to position `i + n` when
`-n ≤ i < 0`, and raises `IndexError` when `i < -n` or `i ≥ n`.  The
embedding keeps the point type abstract (the loop never inspects
coordinates, it only indexes), models the plotting calls as list
construction, and models a raised `IndexError` as an `Except.error`.
-/

set_option autoImplicit false

namespace VoronoiNotebook

universe u
variable {α : Type u}

/-- Python/NumPy integer indexing into a sequence: a negative index `i`
with `-n ≤ i < 0` resolves to position `i + n`; indices outside
`-n ≤ i < n` yield `none` (an `IndexError` in Python). -/
def npIndex (xs : List α) (i : Int) : Option α :=
  if i < 0 then
    if i + (xs.length : Int) < 0 then none
    else xs.get? (i + (xs.length : Int)).toNat
  else
    xs.get? i.toNat

/-- The position a Python/NumPy-valid index `i` (with `-n ≤ i < n`)
resolves to in a sequence of length `n`: negative indices count from the
end (`i + n`), non-negative indices are used as they are. -/
def npPos (n : Nat) (i : Int) : Nat :=
  (if i < 0 then i + (n : Int) else i).toNat

/-- The two kinds of `IndexError` the loop body can raise:
`indexOutOfRange i` models `vor_vertices[i]` failing (NumPy array lookup),
`listIndexError k` models `edge[k]` failing (the ridge list is shorter
than `k + 1`). -/
inductive RenderError where
  | indexOutOfRange : Int → RenderError
  | listIndexError : Nat → RenderError
deriving DecidableEq, Repr

/-- One iteration of the loop on ridge `edge`: if `-1 in edge`, skip
(`ok none`); otherwise evaluate `edge[0]`, `vor_vertices[edge[0]]`,
`edge[1]`, `vor_vertices[edge[1]]` in Python's evaluation order and emit
the segment (`ok (some (start, end))`), propagating the first
`IndexError` as `error`. -/
def renderRidge (vertices : List α) (edge : List Int) :
    Except RenderError (Option (α × α)) :=
  if (-1 : Int) ∈ edge then
    .ok none
  else
    match edge.get? 0 with
    | none => .error (.listIndexError 0)
    | some i0 =>
      match npIndex vertices i0 with
      | none => .error (.indexOutOfRange i0)
      | some p0 =>
        match edge.get? 1 with
        | none => .error (.listIndexError 1)
        | some i1 =>
          match npIndex vertices i1 with
          | none => .error (.indexOutOfRange i1)
          | some p1 => .ok (some (p0, p1))

/-- The whole loop: runs `renderRidge` on each ridge in order, collecting
the emitted segments; the first raised `IndexError` aborts the run. -/
def renderSegments (vertices : List α) (ridges : List (List Int)) :
    Except RenderError (List (α × α)) :=
  match ridges with
  | [] => .ok []
  | edge :: rest =>
    match renderRidge vertices edge with
    | .error e => .error e
    | .ok none => renderSegments vertices rest
    | .ok (some s) =>
      match renderSegments vertices rest with
      | .error e => .error e
      | .ok segs => .ok (s :: segs)

/-- A `Ridge` of the spec's data model: a pair of integer indices,
embedded as the two-element Python list the notebook iterates over. -/
def pairEdge (r : Int × Int) : List Int := [r.1, r.2]

/-- A ridge is finite iff neither entry is the sentinel `-1`. -/
def finiteRidge (r : Int × Int) : Bool :=
  ¬(r.1 = -1 ∨ r.2 = -1)

/-- Every non-sentinel index of the ridge is a valid (non-negative)
index into `vertices`, as the spec's data-model invariant requires. -/
def ridgeValid (vertices : List α) (r : Int × Int) : Prop :=
  (r.1 = -1 ∨ (0 ≤ r.1 ∧ r.1 < (vertices.length : Int))) ∧
  (r.2 = -1 ∨ (0 ≤ r.2 ∧ r.2 < (vertices.length : Int)))

instance (vertices : List α) (r : Int × Int) :
    Decidable (ridgeValid vertices r) := by
  unfold ridgeValid; infer_instance

/-- Resolution of one ridge's two indices against the vertex set, the
value the renderer is specified to emit for a finite ridge. -/
def resolveRidge (vertices : List α) (r : Int × Int) : Option (α × α) :=
  match npIndex vertices r.1, npIndex vertices r.2 with
  | some p, some q => some (p, q)
  | _, _ => none

/-! ## Helper lemmas -/

theorem npIndex_of_valid (xs : List α) (i : Int) (h0 : 0 ≤ i)
    (h1 : i.toNat < xs.length) :
    npIndex xs i = some (xs.get ⟨i.toNat, h1⟩) := by
  unfold npIndex
  rw [if_neg (by omega)]
  exact List.get?_eq_get h1

theorem npIndex_neg (xs : List α) (d : Int)
    (h2 : -(xs.length : Int) ≤ d) (h3 : d < 0)
    (hb : (d + (xs.length : Int)).toNat < xs.length) :
    npIndex xs d = some (xs.get ⟨(d + (xs.length : Int)).toNat, hb⟩) := by
  unfold npIndex
  rw [if_pos h3, if_neg (by omega)]
  exact List.get?_eq_get hb

theorem npIndex_none (xs : List α) (i : Int)
    (h : i < -(xs.length : Int) ∨ (xs.length : Int) ≤ i) :
    npIndex xs i = none := by
  unfold npIndex
  rcases h with h | h
  · rw [if_pos (by omega), if_pos (by omega)]
  · rw [if_neg (by omega)]
    exact List.get?_eq_none.mpr (by omega)

theorem npIndex_eq_npPos (xs : List α) (i : Int)
    (h2 : -(xs.length : Int) ≤ i) (h3 : i < (xs.length : Int))
    (hp : npPos xs.length i < xs.length) :
    npIndex xs i = some (xs.get ⟨npPos xs.length i, hp⟩) := by
  have hq : npIndex xs i = xs.get? (npPos xs.length i) := by
    unfold npIndex npPos
    by_cases hneg : i < 0
    · simp only [if_pos hneg]
      rw [if_neg (show ¬(i + (xs.length : Int) < 0) by omega)]
    · simp only [if_neg hneg]
  rw [hq]
  exact List.get?_eq_get hp

theorem renderRidge_pair (vertices : List α) (i j : Int) :
    renderRidge vertices (pairEdge (i, j)) =
      if i = -1 ∨ j = -1 then .ok none
      else
        match npIndex vertices i with
        | none => .error (.indexOutOfRange i)
        | some p =>
          match npIndex vertices j with
          | none => .error (.indexOutOfRange j)
          | some q => .ok (some (p, q)) := by
  by_cases h : i = -1 ∨ j = -1
  · rw [if_pos h]
    unfold renderRidge
    rw [if_pos (by
      simp only [pairEdge, List.mem_cons, List.not_mem_nil, or_false]
      tauto)]
  · rw [if_neg h]
    unfold renderRidge
    rw [if_neg (by
      simp only [pairEdge, List.mem_cons, List.not_mem_nil, or_false]
      tauto)]
    rfl

theorem renderSegments_cons (vertices : List α) (e : List Int)
    (rs : List (List Int)) :
    renderSegments vertices (e :: rs) =
      match renderRidge vertices e with
      | .error err => .error err
      | .ok none => renderSegments vertices rs
      | .ok (some s) =>
        match renderSegments vertices rs with
        | .error err => .error err
        | .ok segs => .ok (s :: segs) := rfl

theorem renderSegments_error_of_mem (vertices : List α)
    (ridges : List (List Int)) (edge : List Int) (hmem : edge ∈ ridges)
    (herr : ∃ e, renderRidge vertices edge = .error e) :
    ∃ e, renderSegments vertices ridges = .error e := by
  induction ridges with
  | nil => cases hmem
  | cons r rest ih =>
    rw [renderSegments_cons]
    rcases List.mem_cons.mp hmem with rfl | hmem'
    · obtain ⟨e, he⟩ := herr
      exact ⟨e, by rw [he]⟩
    · match hr : renderRidge vertices r with
      | .error e => exact ⟨e, rfl⟩
      | .ok none => exact ih hmem'
      | .ok (some s) =>
        obtain ⟨e, he⟩ := ih hmem'
        exact ⟨e, by rw [he]⟩

theorem renderRidge_of_valid_finite (vertices : List α) (r : Int × Int)
    (hval : ridgeValid vertices r) (hfin : finiteRidge r = true) :
    ∃ s, renderRidge vertices (pairEdge r) = .ok (some s) ∧
      resolveRidge vertices r = some s := by
  have hfin' : ¬(r.1 = -1 ∨ r.2 = -1) := by
    simpa [finiteRidge] using hfin
  obtain ⟨h1, h2⟩ := hval
  have hv1 : 0 ≤ r.1 ∧ r.1 < (vertices.length : Int) := by tauto
  have hv2 : 0 ≤ r.2 ∧ r.2 < (vertices.length : Int) := by tauto
  have hb1 : r.1.toNat < vertices.length := by omega
  have hb2 : r.2.toNat < vertices.length := by omega
  refine ⟨(vertices.get ⟨r.1.toNat, hb1⟩, vertices.get ⟨r.2.toNat, hb2⟩), ?_, ?_⟩
  · obtain ⟨a, b⟩ := r
    rw [renderRidge_pair, if_neg hfin',
      npIndex_of_valid vertices a hv1.1 hb1,
      npIndex_of_valid vertices b hv2.1 hb2]
  · rw [resolveRidge,
      npIndex_of_valid vertices r.1 hv1.1 hb1,
      npIndex_of_valid vertices r.2 hv2.1 hb2]

theorem renderRidge_sentinel (vertices : List α) (r : Int × Int)
    (hfin : finiteRidge r = false) :
    renderRidge vertices (pairEdge r) = .ok none := by
  have h : r.1 = -1 ∨ r.2 = -1 := by
    by_contra hc
    simp [finiteRidge, hc] at hfin
  obtain ⟨a, b⟩ := r
  rw [renderRidge_pair, if_pos h]

theorem renderSegments_pairs_of_valid (vertices : List α)
    (ridges : List (Int × Int))
    (hvalid : ∀ r ∈ ridges, ridgeValid vertices r) :
    ∃ segs, renderSegments vertices (ridges.map pairEdge) = .ok segs ∧
      segs.map some = (ridges.filter finiteRidge).map
        (resolveRidge vertices) := by
  induction ridges with
  | nil => exact ⟨[], rfl, rfl⟩
  | cons r rest ih =>
    obtain ⟨segs, hseg, hmap⟩ :=
      ih (fun r' hr' => hvalid r' (List.mem_cons_of_mem r hr'))
    have hr := hvalid r (List.mem_cons_self r rest)
    rw [List.map_cons, renderSegments_cons]
    cases hfin : finiteRidge r with
    | true =>
      obtain ⟨s, hrr, hres⟩ := renderRidge_of_valid_finite vertices r hr hfin
      refine ⟨s :: segs, ?_, ?_⟩
      · rw [hrr, hseg]
      · rw [List.filter_cons_of_pos hfin, List.map_cons, List.map_cons,
          hmap, hres]
    | false =>
      refine ⟨segs, ?_, ?_⟩
      · rw [renderRidge_sentinel vertices r hfin, hseg]
      · rw [List.filter_cons_of_neg (by simp [hfin]), hmap]

theorem renderRidge_nil_edge (vertices : List α) :
    renderRidge vertices [] = .error (.listIndexError 0) := by
  unfold renderRidge
  rw [if_neg (List.not_mem_nil (-1))]
  rfl

theorem renderRidge_single (vertices : List α) (i : Int) (hi : i ≠ -1) :
    ∃ e, renderRidge vertices [i] = .error e := by
  unfold renderRidge
  rw [if_neg (by simpa using fun h => hi h.symm)]
  simp only [List.get?_cons_zero, List.get?_cons_succ, List.get?_nil]
  cases hA : npIndex vertices i with
  | none => exact ⟨.indexOutOfRange i, rfl⟩
  | some p => exact ⟨.listIndexError 1, rfl⟩

/-! ## Claims -/

/-- C1: for every VertexSet and every RidgeList whose non-sentinel indices
are valid, the renderer succeeds and produces exactly one Segment per
finite ridge: the output length equals the count of finite ridges, the
k-th output Segment is the resolution of the k-th finite ridge (so the
output order matches RidgeList order with unbounded ridges elided), and an
empty RidgeList yields an empty Segment sequence. -/
theorem claim1_one_segment_per_finite_ridge (vertices : List α)
    (ridges : List (Int × Int))
    (hvalid : ∀ r ∈ ridges, ridgeValid vertices r) :
    ∃ segs, renderSegments vertices (ridges.map pairEdge) = .ok segs ∧
      segs.length = (ridges.filter finiteRidge).length ∧
      segs.map some = (ridges.filter finiteRidge).map (resolveRidge vertices) ∧
      (ridges = [] → segs = []) := by
  obtain ⟨segs, h1, h2⟩ := renderSegments_pairs_of_valid vertices ridges hvalid
  refine ⟨segs, h1, ?_, h2, ?_⟩
  · have hlen := congrArg List.length h2
    simpa using hlen
  · rintro rfl
    simpa using h2

theorem claim1_witness :
    ∃ segs, renderSegments [((0:Int),(0:Int)), ((1:Int),(1:Int))]
        (([(0, 1), (-1, 0)] : List (Int × Int)).map pairEdge) = .ok segs ∧
      segs.length =
        (([(0, 1), (-1, 0)] : List (Int × Int)).filter finiteRidge).length ∧
      segs.map some =
        (([(0, 1), (-1, 0)] : List (Int × Int)).filter finiteRidge).map
          (resolveRidge [((0:Int),(0:Int)), ((1:Int),(1:Int))]) ∧
      (([(0, 1), (-1, 0)] : List (Int × Int)) = [] → segs = []) :=
  claim1_one_segment_per_finite_ridge _ _ (by decide)

/-- C2: ridges containing the sentinel `-1` emit no Segment at all — the
output over a RidgeList equals the output over the same RidgeList with
every sentinel-containing ridge removed, so sentinel ridges produce
nothing (no ray, no partial segment) and the surrounding finite ridges
keep their relative order. -/
theorem claim2_sentinel_ridges_produce_nothing (vertices : List α)
    (ridges : List (Int × Int)) :
    renderSegments vertices (ridges.map pairEdge) =
      renderSegments vertices ((ridges.filter finiteRidge).map pairEdge) := by
  induction ridges with
  | nil => rfl
  | cons r rest ih =>
    cases hfin : finiteRidge r with
    | true =>
      rw [List.filter_cons_of_pos hfin, List.map_cons, List.map_cons,
        renderSegments_cons, renderSegments_cons, ih]
    | false =>
      rw [List.filter_cons_of_neg (by simp [hfin]), List.map_cons,
        renderSegments_cons, renderRidge_sentinel vertices r hfin, ih]

/-- C3: for a finite ridge `(i, j)` with valid indices, the emitted
Segment is exactly `(VertexSet[i], VertexSet[j])` — start from the first
index, end from the second, in the order they appear in the ridge. -/
theorem claim3_endpoints_in_ridge_order (vertices : List α) (i j : Int)
    (hi0 : 0 ≤ i) (hi : i.toNat < vertices.length)
    (hj0 : 0 ≤ j) (hj : j.toNat < vertices.length) :
    renderSegments vertices [pairEdge (i, j)] =
      .ok [(vertices.get ⟨i.toNat, hi⟩, vertices.get ⟨j.toNat, hj⟩)] := by
  rw [renderSegments_cons, renderRidge_pair, if_neg (by omega),
    npIndex_of_valid vertices i hi0 hi, npIndex_of_valid vertices j hj0 hj]
  rfl

theorem claim3_witness :
    renderSegments [((3:Int),(3:Int)), ((4:Int),(4:Int))] [pairEdge (0, 1)] =
      .ok [(((3:Int),(3:Int)), ((4:Int),(4:Int)))] :=
  claim3_endpoints_in_ridge_order [((3:Int),(3:Int)), ((4:Int),(4:Int))] 0 1
    (by decide) (by decide) (by decide) (by decide)

/-- C4 counterexample: the index `-2` is non-sentinel and is not a valid
index in the claim's sense (it violates `0 ≤ index < |VertexSet|` for the
size-2 VertexSet `[(0,0), (1,1)]`), yet the renderer does not fail on the
ridge `(0, -2)`: Python/NumPy indexing resolves `-2` by counting from the
end, and the renderer succeeds with a segment. -/
theorem claim4_counterexample :
    ((-2 : Int) ≠ -1 ∧
      ¬(0 ≤ (-2 : Int) ∧ (-2 : Int) <
        (([((0:Int),(0:Int)), ((1:Int),(1:Int))].length : Nat) : Int))) ∧
    renderSegments [((0:Int),(0:Int)), ((1:Int),(1:Int))] [pairEdge (0, -2)] =
      .ok [(((0:Int),(0:Int)), ((0:Int),(0:Int)))] :=
  ⟨by decide, rfl⟩

/-- C4 (amended): if some ridge contains no sentinel and contains an index
outside the range Python/NumPy indexing accepts (`-|VertexSet| ≤ index <
|VertexSet|`), the renderer fails with an IndexOutOfRange-type error; in
particular VertexSet = [(0,0)] with RidgeList = [(0,5)] fails, and a
size-0 VertexSet with a non-empty RidgeList referencing any non-sentinel
index fails. -/
theorem claim4_out_of_range_fails (vertices : List α)
    (ridges : List (Int × Int))
    (h : ∃ r ∈ ridges, finiteRidge r = true ∧
      ((r.1 < -(vertices.length : Int) ∨ (vertices.length : Int) ≤ r.1) ∨
       (r.2 < -(vertices.length : Int) ∨ (vertices.length : Int) ≤ r.2))) :
    ∃ e, renderSegments vertices (ridges.map pairEdge) = .error e := by
  obtain ⟨r, hmem, hfin, hout⟩ := h
  apply renderSegments_error_of_mem vertices _ (pairEdge r)
    (List.mem_map_of_mem pairEdge hmem)
  have hfin' : ¬(r.1 = -1 ∨ r.2 = -1) := by
    simpa [finiteRidge] using hfin
  obtain ⟨a, b⟩ := r
  rw [renderRidge_pair, if_neg hfin']
  rcases hout with houtA | houtB
  · rw [npIndex_none vertices a houtA]
    exact ⟨.indexOutOfRange a, rfl⟩
  · cases hA : npIndex vertices a with
    | none => exact ⟨.indexOutOfRange a, rfl⟩
    | some p =>
      rw [npIndex_none vertices b houtB]
      exact ⟨.indexOutOfRange b, rfl⟩

theorem claim4_witness :
    ∃ e, renderSegments [((0:Int),(0:Int))]
      (([(0, 5)] : List (Int × Int)).map pairEdge) = .error e :=
  claim4_out_of_range_fails [((0:Int),(0:Int))] [(0, 5)]
    ⟨(0, 5), by decide, by decide, by decide⟩

/-- C5 counterexample: the ridge `[0, 1, 0]` has cardinality 3 (not two),
yet the renderer does not fail at all — the sentinel check scans all
entries and only the first two are used as endpoints, so the run succeeds
and emits a segment. -/
theorem claim5_counterexample :
    ([(0:Int), 1, 0].length ≠ 2) ∧
    renderSegments [((0:Int),(0:Int)), ((1:Int),(0:Int))] [[0, 1, 0]] =
      .ok [(((0:Int),(0:Int)), ((1:Int),(0:Int)))] :=
  ⟨by decide, rfl⟩

/-- C5 (amended): a ridge with more than two entries is not rejected (see
the counterexample: its first two entries are used, the extra entries only
participate in the sentinel check); a ridge with fewer than two entries
that does not contain the sentinel makes the renderer fail immediately
with a fatal IndexError when the missing endpoint is accessed. -/
theorem claim5_short_ridge_fails (vertices : List α)
    (ridges : List (List Int)) (edge : List Int) (hmem : edge ∈ ridges)
    (hlen : edge.length < 2) (hsent : (-1 : Int) ∉ edge) :
    ∃ e, renderSegments vertices ridges = .error e := by
  apply renderSegments_error_of_mem vertices ridges edge hmem
  match edge, hlen, hsent with
  | [], _, _ =>
    exact ⟨.listIndexError 0, renderRidge_nil_edge vertices⟩
  | [i], _, hsent =>
    exact renderRidge_single vertices i
      (fun hi => hsent (by rw [hi]; exact List.mem_singleton_self (-1)))

theorem claim5_witness :
    ∃ e, renderSegments [((0:Int),(0:Int))] [[(0:Int)]] = .error e :=
  claim5_short_ridge_fails [((0:Int),(0:Int))] [[(0:Int)]] [(0:Int)]
    (by decide) (by decide) (by decide)

/-- C6: on VertexSet = [(0,0), (1,0), (1,1)] and RidgeList =
[(0,1), (1,2), (-1,2)] the renderer outputs exactly
[((0,0),(1,0)), ((1,0),(1,1))]; the third ridge produces nothing because
it contains the sentinel. -/
theorem claim6_concrete_scenario :
    renderSegments [((0:Int),(0:Int)), ((1:Int),(0:Int)), ((1:Int),(1:Int))]
      (([(0, 1), (1, 2), (-1, 2)] : List (Int × Int)).map pairEdge) =
    .ok [(((0:Int),(0:Int)), ((1:Int),(0:Int))),
         (((1:Int),(0:Int)), ((1:Int),(1:Int)))] := rfl

/-- C7: a degenerate ridge `(i, i)` with a valid index is passed through
unmodified: the renderer emits the zero-length Segment
`(VertexSet[i], VertexSet[i])` rather than filtering or rejecting it. -/
theorem claim7_degenerate_passes_through (vertices : List α) (i : Int)
    (hi0 : 0 ≤ i) (hi : i.toNat < vertices.length) :
    renderSegments vertices [pairEdge (i, i)] =
      .ok [(vertices.get ⟨i.toNat, hi⟩, vertices.get ⟨i.toNat, hi⟩)] := by
  rw [renderSegments_cons, renderRidge_pair, if_neg (by omega),
    npIndex_of_valid vertices i hi0 hi]
  rfl

theorem claim7_witness :
    renderSegments [((0:Int),(0:Int))] [pairEdge (0, 0)] =
      .ok [(((0:Int),(0:Int)), ((0:Int),(0:Int)))] :=
  claim7_degenerate_passes_through [((0:Int),(0:Int))] 0 (by decide) (by decide)

/-- C8: the renderer is a pure, deterministic function of its two inputs:
any two runs on equal (VertexSet, RidgeList) pairs return identical
results — there is no hidden state a run could read or write. -/
theorem claim8_deterministic (vertices vertices' : List α)
    (ridges ridges' : List (List Int))
    (hv : vertices = vertices') (hr : ridges = ridges') :
    renderSegments vertices ridges = renderSegments vertices' ridges' := by
  rw [hv, hr]

theorem claim8_witness :
    renderSegments [((0:Int),(0:Int))] [[0, 0]] =
      renderSegments [((0:Int),(0:Int))] [[0, 0]] :=
  claim8_deterministic _ _ _ _ rfl rfl

/-- C9: the transformation is total (the embedded function terminates on
every finite RidgeList — it is a structurally recursive single pass), and
a successful run produces a finite sequence of at most one Segment per
input ridge. -/
theorem claim9_single_pass_bounded (vertices : List α)
    (ridges : List (List Int)) (segs : List (α × α))
    (h : renderSegments vertices ridges = .ok segs) :
    segs.length ≤ ridges.length := by
  induction ridges generalizing segs with
  | nil =>
    obtain rfl : ([] : List (α × α)) = segs := by
      simpa [renderSegments] using h
    simp
  | cons e rest ih =>
    rw [renderSegments_cons] at h
    cases hr : renderRidge vertices e with
    | error err => rw [hr] at h; cases h
    | ok o =>
      cases o with
      | none =>
        rw [hr] at h
        exact Nat.le_succ_of_le (ih segs h)
      | some s =>
        rw [hr] at h
        cases hrest : renderSegments vertices rest with
        | error err => rw [hrest] at h; cases h
        | ok segs2 =>
          rw [hrest] at h
          cases h
          simpa [Nat.succ_le_succ_iff] using ih segs2 hrest

theorem claim9_witness :
    [(((0:Int),(0:Int)), ((0:Int),(0:Int)))].length ≤
      ([[(0:Int), 0]] : List (List Int)).length :=
  claim9_single_pass_bounded [((0:Int),(0:Int))] [[0, 0]]
    [(((0:Int),(0:Int)), ((0:Int),(0:Int)))] rfl

/-- C10 counterexample: the ridge `(-1, -2)` against the size-2 VertexSet
`[(0,0), (1,1)]` contains the negative index `d = -2` with `d ≠ -1` and
`-2 ≤ d < 0`, yet the renderer skips the ridge entirely (it emits no
segment), because the sentinel in the other slot fires the `-1 in edge`
check first — contradicting the claim that the renderer "does not skip"
every such ridge. -/
theorem claim10_counterexample :
    ((-2 : Int) ≠ -1 ∧
      -(([((0:Int),(0:Int)), ((1:Int),(1:Int))].length : Nat) : Int) ≤ -2 ∧
      (-2 : Int) < 0) ∧
    renderSegments [((0:Int),(0:Int)), ((1:Int),(1:Int))]
      [pairEdge (-1, -2)] = .ok [] :=
  ⟨by decide, rfl⟩

/-- C10 (amended): for a ridge neither of whose entries is the sentinel
`-1` and both of whose entries lie in the range Python/NumPy indexing
accepts (`-|VertexSet| ≤ index < |VertexSet|`), the renderer does not
fail and does not skip, even when an entry is a negative index `d` with
`d ≠ -1` and `-|VertexSet| ≤ d < 0` in either slot: each entry is treated
as non-sentinel and resolved by counting from the end of VertexSet when
negative (`npPos`, giving `VertexSet[|VertexSet| + d]`), and a segment
with the resolved endpoints is silently emitted.  (The unamended claim
fails for ridges whose other entry is the sentinel — skipped, see the
counterexample — or out of NumPy range — failure, by
`claim4_out_of_range_fails`.) -/
theorem claim10_negative_index_amended (vertices : List α) (a b : Int)
    (ha1 : a ≠ -1) (hb1 : b ≠ -1)
    (ha2 : -(vertices.length : Int) ≤ a) (ha3 : a < (vertices.length : Int))
    (hb2 : -(vertices.length : Int) ≤ b) (hb3 : b < (vertices.length : Int))
    (hpa : npPos vertices.length a < vertices.length)
    (hpb : npPos vertices.length b < vertices.length) :
    renderSegments vertices [pairEdge (a, b)] =
      .ok [(vertices.get ⟨npPos vertices.length a, hpa⟩,
            vertices.get ⟨npPos vertices.length b, hpb⟩)] := by
  rw [renderSegments_cons, renderRidge_pair, if_neg (by tauto),
    npIndex_eq_npPos vertices a ha2 ha3 hpa,
    npIndex_eq_npPos vertices b hb2 hb3 hpb]
  rfl

theorem claim10_witness :
    renderSegments [((5:Int),(5:Int)), ((7:Int),(7:Int))] [pairEdge (-2, 1)] =
      .ok [(((5:Int),(5:Int)), ((7:Int),(7:Int)))] :=
  claim10_negative_index_amended [((5:Int),(5:Int)), ((7:Int),(7:Int))]
    (-2) 1 (by decide) (by decide) (by decide) (by decide) (by decide)
    (by decide) (by decide) (by decide)

end VoronoiNotebook
